import Mathlib

/-!
Shallow embedding of the FTL parser-combinator engine
(src/examples/parser_combinator/parser_combinator.h).

A C++ `std::istream&` is modelled as a `List Char` holding the characters not
yet consumed; a run of a parser returns the `ftl::either<error,T>` result
together with the remaining stream, making the mutation of the stream
explicit.  `ftl::either` is modelled by the two-constructor inductive
`either`, `class error` by a one-field structure, and each combinator is a
direct transcription of the closure it builds in the header.
-/

/-- Error reporting class: a thin wrapper around a message string
(`class error`, parser_combinator.h lines 14-29). -/
structure error where
  e : String
deriving DecidableEq, Repr

/-- Access the error message (`error::message`). -/
def error.message (err : error) : String := err.e

/-- Model of `ftl::either<L,R>`: a tagged union holding a left (error) or a
right (success) value. -/
inductive either (L R : Type) where
  | left : L → either L R
  | right : R → either L R
deriving DecidableEq, Repr

/-- Convenience function (`fail<T>(s)`, lines 32-35): build a left-tagged
result holding `error(s)`. -/
def fail (T : Type) (s : String) : either error T := either.left (error.mk s)

/-- Convenience function (`yield(t)`, lines 38-41): build a right-tagged
result holding `t`. -/
def yield {T : Type} (t : T) : either error T := either.right t

/-- Model of `parser<T>` (lines 61-97): a value wrapping one computation from
a stream to a result plus the stream state it leaves behind. -/
structure parser (T : Type) where
  runP : List Char → either error T × List Char

/-- Run the parser (`parser<T>::run`, lines 88-90). -/
def parser.run {T : Type} (p : parser T) (s : List Char) :
    either error T × List Char := p.runP s

namespace ftl

/-- Model of `monad<parser<T>>::pure` (lines 111-117): consume no input,
yield `a`. -/
def monad.pure {T : Type} (a : T) : parser T :=
  parser.mk (fun stream => (yield a, stream))

/-- Model of the either-functor action used by `f % r` in
`monad<parser<T>>::map`: a left value propagates unchanged, a right value is
transformed by `f`. -/
def eitherMap {L T U : Type} (f : T → U) : either L T → either L U
  | either.left l => either.left l
  | either.right r => either.right (f r)

/-- Model of `monad<parser<T>>::map` (lines 125-133): run `p`, then apply
`f % r` to its result. -/
def monad.map {T U : Type} (f : T → U) (p : parser T) : parser U :=
  parser.mk (fun s =>
    let r := p.run s
    (eitherMap f r.1, r.2))

/-- Model of `monad<parser<T>>::bind` (lines 141-154): run `p`; on success
run `f` of the value on the stream `p` left behind; on failure rebuild the
failure at the new result type from the message. -/
def monad.bind {T U : Type} (p : parser T) (f : T → parser U) : parser U :=
  parser.mk (fun strm =>
    match p.run strm with
    | (either.right v, strm1) => (f v).run strm1
    | (either.left err, strm1) => (fail U err.message, strm1))

/-- Model of `monoidA<parser>::orDo` (lines 187-207): run `p1`; on failure
run `p2` on the stream `p1` left behind; if both fail, combine the two
messages with " or ".  (Declared before `monoidA.fail` so that `fail` here
denotes the root convenience function, as `::fail<T>` does in the source.) -/
def monoidA.orDo {T : Type} (p1 p2 : parser T) : parser T :=
  parser.mk (fun is =>
    match p1.run is with
    | (either.right v, is1) => (either.right v, is1)
    | (either.left e1, is1) =>
      match p2.run is1 with
      | (either.right v, is2) => (either.right v, is2)
      | (either.left e2, is2) =>
        (fail T (e1.message ++ " or " ++ e2.message), is2))

/-- Model of `monoidA<parser>::fail` (lines 169-176): always yield
`fail<T>("Unknown parse error.")`, leaving the stream untouched.  The body
inlines the convenience function `fail`. -/
def monoidA.fail (T : Type) : parser T :=
  parser.mk (fun s => (either.left (error.mk "Unknown parse error."), s))

end ftl

/-- Model of `lazy` (lines 268-281): capture the producer `f` unapplied and,
each time the parser is run, call `f ()` to materialize the inner parser and
run it on the stream. -/
def lazy {T : Type} (f : Unit → parser T) : parser T :=
  parser.mk (fun is => (f ()).run is)

/-- Modelled from the spec: the definition of `parseChar` is not under src
(parser_combinator.h line 231 only declares it).  Per the spec (section 4.5
and section 8 item 5) it succeeds with `c`, consuming one character, when the
next character equals `c`, and fails without advancing the stream on a
mismatch or on an exhausted stream. -/
def parseChar (c : Char) : parser Char :=
  parser.mk (fun s =>
    match s with
    | [] => (fail Char ("expected " ++ String.mk [c] ++ ", got end of stream"), [])
    | x :: xs =>
      if x = c then (yield c, xs)
      else (fail Char ("expected " ++ String.mk [c] ++ ", got " ++ String.mk [x]),
            x :: xs))

/-- Modelled from the spec: fuelled iteration underlying `many` (declared at
parser_combinator.h line 254, defined outside src).  Repeatedly run `p`,
collecting the characters it yields; when an attempt fails, stop and rewind
the stream to the position before that attempt.  The fuel argument only makes
the recursion structural: a parser that consumes on every success never
exhausts a fuel of one more than the stream length. -/
def manyFuel (p : parser Char) : Nat → List Char → List Char × List Char
  | 0, s => ([], s)
  | Nat.succ n, s =>
    match p.run s with
    | (either.left _, _) => ([], s)
    | (either.right c, s1) =>
      let r := manyFuel p n s1
      (c :: r.1, r.2)

/-- Modelled from the spec: `many p` (section 4.5) always succeeds, returning
the string built by running `p` until it fails, the final failing attempt
consuming nothing. -/
def many (p : parser Char) : parser String :=
  parser.mk (fun s =>
    let r := manyFuel p (s.length + 1) s
    (yield (String.mk r.1), r.2))

/-- A parser consumes on success: every successful run strictly shortens the
stream.  All single-character primitives of the spec have this property. -/
def consuming (p : parser Char) : Prop :=
  ∀ s c t, p.runP s = (either.right c, t) → t.length < s.length

/-- Helper: for a parser that consumes on success, the fuelled iteration of
`many` does not depend on the fuel once the fuel exceeds the stream
length. -/
theorem manyFuel_fuel_irrel (p : parser Char) (hp : consuming p) :
    ∀ n m s, s.length < n → s.length < m → manyFuel p n s = manyFuel p m s := by
  intro n
  induction n with
  | zero =>
    intro m s hn _
    exact absurd hn (Nat.not_lt_zero _)
  | succ k ih =>
    intro m s hn hm
    cases m with
    | zero => exact absurd hm (Nat.not_lt_zero _)
    | succ l =>
      rcases hres : p.runP s with ⟨r, t⟩
      cases r with
      | left e =>
        simp [manyFuel, parser.run, hres]
      | right c =>
        have hlt := hp s c t hres
        have h1 : t.length < k := by omega
        have h2 : t.length < l := by omega
        simp [manyFuel, parser.run, hres, ih l t h1 h2]

/-- Helper: a successful run of `parseChar c` consumes exactly the matched
character, strictly shortening the stream. -/
theorem parseChar_consuming (c : Char) : consuming (parseChar c) := by
  intro s x t h
  cases s with
  | nil =>
    simp [parseChar, fail] at h
  | cons a as =>
    by_cases hac : a = c
    · simp [parseChar, hac, yield] at h
      obtain ⟨h1, h2⟩ := h
      subst h2
      simp
    · simp [parseChar, hac, fail] at h

/-- C2: monad left identity — for every value `a`, function `f` into parsers
and stream `s`, running `bind (pure a) f` gives the same result and leaves
the same stream as running `f a`. -/
theorem bind_pure_left_identity {T U : Type} (a : T) (f : T → parser U)
    (s : List Char) :
    (ftl.monad.bind (ftl.monad.pure a) f).runP s = (f a).runP s := rfl

/-- C6: the canonical failing parser — for every stream, including the empty
one, `monoidA.fail` yields a failure whose message is exactly
"Unknown parse error." and consumes no input. -/
theorem fail_always_unknown (T : Type) (s : List Char) :
    (ftl.monoidA.fail T).runP s =
      (either.left (error.mk "Unknown parse error."), s) := rfl

/-- C9: `lazy f` defers to the parser the producer materializes — running it
on any stream applies `f` and runs the produced parser on that stream,
returning its result; `lazy` captures `f` unapplied, so the producer is
applied inside the run closure, once per run, never at construction. -/
theorem lazy_spec {T : Type} (f : Unit → parser T) (s : List Char) :
    (lazy f).runP s = (f ()).runP s := rfl

/-- C3: `bind p f` propagates a failure of `p` as a failure with the same
message at the stream position `p` left, and on success with `v` runs `f v`
on the already-advanced stream, returning its result unchanged. -/
theorem bind_spec {T U : Type} (p : parser T) (f : T → parser U)
    (s : List Char) :
    (∀ err t, p.runP s = (either.left err, t) →
      (ftl.monad.bind p f).runP s = (either.left (error.mk err.message), t)) ∧
    (∀ v t, p.runP s = (either.right v, t) →
      (ftl.monad.bind p f).runP s = (f v).runP t) := by
  constructor
  · intro err t h
    simp [ftl.monad.bind, parser.run, h, fail]
  · intro v t h
    simp [ftl.monad.bind, parser.run, h]

/-- C3 witness: `bind (parseChar a) (fun _ => parseChar b)` at concrete
streams, failing branch and succeeding branch discharged. -/
theorem bind_spec_witness :
    ((ftl.monad.bind (parseChar 'a') (fun _ => parseChar 'b')).runP ['z'] =
      (either.left (error.mk "expected a, got z"), ['z'])) ∧
    ((ftl.monad.bind (parseChar 'a') (fun _ => parseChar 'b')).runP ['a', 'b'] =
      (parseChar 'b').runP ['b']) :=
  ⟨((bind_spec (parseChar 'a') (fun _ => parseChar 'b') ['z']).1
      (error.mk "expected a, got z") ['z'] (by decide)).trans (by decide),
   (bind_spec (parseChar 'a') (fun _ => parseChar 'b') ['a', 'b']).2
      'a' ['b'] (by decide)⟩

/-- C7: `map f p` propagates a failure of `p` unchanged (same error, same
stream position) and turns a success with `v` into a success with `f v`,
with the stream consumed exactly as `p` consumed it. -/
theorem map_spec {T U : Type} (f : T → U) (p : parser T) (s : List Char) :
    (∀ err t, p.runP s = (either.left err, t) →
      (ftl.monad.map f p).runP s = (either.left err, t)) ∧
    (∀ v t, p.runP s = (either.right v, t) →
      (ftl.monad.map f p).runP s = (either.right (f v), t)) := by
  constructor
  · intro err t h
    simp [ftl.monad.map, parser.run, ftl.eitherMap, h]
  · intro v t h
    simp [ftl.monad.map, parser.run, ftl.eitherMap, h]

/-- C7 witness: `map Char.toNat (parseChar a)` at concrete streams, both
branches discharged. -/
theorem map_spec_witness :
    ((ftl.monad.map Char.toNat (parseChar 'a')).runP ['z'] =
      (either.left (error.mk "expected a, got z"), ['z'])) ∧
    ((ftl.monad.map Char.toNat (parseChar 'a')).runP ['a'] =
      (either.right (Char.toNat 'a'), [])) :=
  ⟨((map_spec Char.toNat (parseChar 'a') ['z']).1
      (error.mk "expected a, got z") ['z'] (by decide)).trans (by decide),
   (map_spec Char.toNat (parseChar 'a') ['a']).2 'a' [] (by decide)⟩

/-- C4: `orDo p1 p2` returns a success of `p1` immediately and independently
of `p2`; if `p1` fails it runs `p2` on the stream `p1` left, returning a
success of `p2` as is; if both fail it fails with the two messages joined
with " or ". -/
theorem orDo_spec {T : Type} (p1 p2 : parser T) (s : List Char) :
    (∀ v t, p1.runP s = (either.right v, t) →
      (ftl.monoidA.orDo p1 p2).runP s = (either.right v, t)) ∧
    (∀ e1 t, p1.runP s = (either.left e1, t) →
      (∀ v u, p2.runP t = (either.right v, u) →
        (ftl.monoidA.orDo p1 p2).runP s = (either.right v, u)) ∧
      (∀ e2 u, p2.runP t = (either.left e2, u) →
        (ftl.monoidA.orDo p1 p2).runP s =
          (either.left (error.mk (e1.message ++ " or " ++ e2.message)), u))) := by
  constructor
  · intro v t h
    simp [ftl.monoidA.orDo, parser.run, h]
  · intro e1 t h
    constructor
    · intro v u h2
      simp [ftl.monoidA.orDo, parser.run, h, h2]
    · intro e2 u h2
      simp [ftl.monoidA.orDo, parser.run, h, h2, fail]

/-- C4 witness: `orDo (parseChar a) (parseChar b)` at concrete streams for
the three cases: first succeeds, first fails and second succeeds, both
fail. -/
theorem orDo_spec_witness :
    ((ftl.monoidA.orDo (parseChar 'a') (parseChar 'b')).runP ['a', 'c'] =
      (either.right 'a', ['c'])) ∧
    ((ftl.monoidA.orDo (parseChar 'a') (parseChar 'b')).runP ['b'] =
      (either.right 'b', [])) ∧
    ((ftl.monoidA.orDo (parseChar 'a') (parseChar 'b')).runP ['z'] =
      (either.left (error.mk "expected a, got z or expected b, got z"), ['z'])) :=
  ⟨(orDo_spec (parseChar 'a') (parseChar 'b') ['a', 'c']).1 'a' ['c'] (by decide),
   ((orDo_spec (parseChar 'a') (parseChar 'b') ['b']).2
      (error.mk "expected a, got b") ['b'] (by decide)).1 'b' [] (by decide),
   (((orDo_spec (parseChar 'a') (parseChar 'b') ['z']).2
      (error.mk "expected a, got z") ['z'] (by decide)).2
      (error.mk "expected b, got z") ['z'] (by decide)).trans (by decide)⟩

/-- C10: when both branches of `orDo` fail, the combined message keeps the
left-to-right order: the message of `p1`, then " or ", then the message of
`p2`. -/
theorem orDo_error_order {T : Type} (p1 p2 : parser T) (s t u : List Char)
    (e1 e2 : error)
    (h1 : p1.runP s = (either.left e1, t))
    (h2 : p2.runP t = (either.left e2, u)) :
    (ftl.monoidA.orDo p1 p2).runP s =
      (either.left (error.mk (e1.message ++ " or " ++ e2.message)), u) := by
  simp [ftl.monoidA.orDo, parser.run, h1, h2, fail]

/-- C10 witness: with both branches failing on a concrete stream, the
message of the first branch comes first. -/
theorem orDo_error_order_witness :
    (ftl.monoidA.orDo (parseChar 'p') (parseChar 'q')).runP ['w'] =
      (either.left (error.mk "expected p, got w or expected q, got w"), ['w']) :=
  (orDo_error_order (parseChar 'p') (parseChar 'q') ['w'] ['w'] ['w']
    (error.mk "expected p, got w") (error.mk "expected q, got w")
    (by decide) (by decide)).trans (by decide)

/-- C5: no silent rewind — when `p1` of `orDo p1 p2` fails leaving the
stream at `s1`, `p2` is run against `s1` itself (no reset to `s`), and the
final stream comes from that run; when `q` of `bind q f` succeeds consuming
input, the continuation runs on the advanced stream and its result, success
or failure, is returned unchanged, so consumed characters stay consumed. -/
theorem no_silent_rewind {T U : Type} (p1 p2 q : parser T) (f : T → parser U)
    (s : List Char) :
    (∀ e1 s1, p1.runP s = (either.left e1, s1) →
      (ftl.monoidA.orDo p1 p2).runP s =
        (match p2.runP s1 with
         | (either.right v, s2) => (either.right v, s2)
         | (either.left e2, s2) =>
           (either.left (error.mk (e1.message ++ " or " ++ e2.message)), s2))) ∧
    (∀ v s1, q.runP s = (either.right v, s1) →
      (ftl.monad.bind q f).runP s = (f v).runP s1) := by
  constructor
  · intro e1 s1 h
    rcases hq : p2.runP s1 with ⟨r2, s2⟩
    cases r2 <;> simp [ftl.monoidA.orDo, parser.run, h, hq, fail]
  · intro v s1 h
    simp [ftl.monad.bind, parser.run, h]

/-- C5 witness: on stream "ab", `orDo (parseChar x) (parseChar b)` runs the
fallback on the un-reset stream and reports its failure on the character a,
and `bind (parseChar a) (fun _ => parseChar b)` continues from the advanced
stream. -/
theorem no_silent_rewind_witness :
    ((ftl.monoidA.orDo (parseChar 'x') (parseChar 'b')).runP ['a', 'b'] =
      (either.left (error.mk "expected x, got a or expected b, got a"),
        ['a', 'b'])) ∧
    ((ftl.monad.bind (parseChar 'a') (fun _ => parseChar 'b')).runP ['a', 'b'] =
      (parseChar 'b').runP ['b']) :=
  ⟨((no_silent_rewind (parseChar 'x') (parseChar 'b') (parseChar 'a')
        (fun _ => parseChar 'b') ['a', 'b']).1
      (error.mk "expected x, got a") ['a', 'b'] (by decide)).trans (by decide),
   (no_silent_rewind (parseChar 'x') (parseChar 'b') (parseChar 'a')
        (fun _ => parseChar 'b') ['a', 'b']).2 'a' ['b'] (by decide)⟩

/-- C1 counterexample: the alternative identity law fails as stated — with
the always-failing parser itself as `p` and the empty stream, running
`orDo (fail ()) p` yields the combined message
"Unknown parse error. or Unknown parse error.", not the result of running
`p`. -/
theorem orDo_fail_identity_cex :
    ¬ ((ftl.monoidA.orDo (ftl.monoidA.fail Char) (ftl.monoidA.fail Char)).runP []
        = (ftl.monoidA.fail Char).runP []) := by decide

/-- C1 amended: `orDo (fail ()) p` and `orDo p (fail ())` behave as `p` on
every stream where `p` succeeds (same value, same consumption); where `p`
fails with message `m` leaving the stream at `t`, both also fail at `t`, but
with the combined messages "Unknown parse error. or m" and
"m or Unknown parse error." respectively instead of `m`. -/
theorem orDo_fail_identity_amended {T : Type} (p : parser T) (s : List Char) :
    (∀ v t, p.runP s = (either.right v, t) →
      (ftl.monoidA.orDo (ftl.monoidA.fail T) p).runP s = (either.right v, t) ∧
      (ftl.monoidA.orDo p (ftl.monoidA.fail T)).runP s = (either.right v, t)) ∧
    (∀ e t, p.runP s = (either.left e, t) →
      (ftl.monoidA.orDo (ftl.monoidA.fail T) p).runP s =
        (either.left (error.mk ("Unknown parse error." ++ " or " ++ e.message)), t) ∧
      (ftl.monoidA.orDo p (ftl.monoidA.fail T)).runP s =
        (either.left (error.mk (e.message ++ " or " ++ "Unknown parse error.")), t)) := by
  constructor
  · intro v t h
    constructor <;>
      simp [ftl.monoidA.orDo, ftl.monoidA.fail, parser.run, h]
  · intro e t h
    constructor <;>
      simp [ftl.monoidA.orDo, ftl.monoidA.fail, parser.run, h, fail, error.message]

/-- C1 witness: the amended law at `p = parseChar a`, on a stream where `p`
succeeds and on one where it fails. -/
theorem orDo_fail_identity_amended_witness :
    ((ftl.monoidA.orDo (ftl.monoidA.fail Char) (parseChar 'a')).runP ['a'] =
      (either.right 'a', [])) ∧
    ((ftl.monoidA.orDo (parseChar 'a') (ftl.monoidA.fail Char)).runP ['a'] =
      (either.right 'a', [])) ∧
    ((ftl.monoidA.orDo (ftl.monoidA.fail Char) (parseChar 'a')).runP ['z'] =
      (either.left (error.mk "Unknown parse error. or expected a, got z"), ['z'])) ∧
    ((ftl.monoidA.orDo (parseChar 'a') (ftl.monoidA.fail Char)).runP ['z'] =
      (either.left (error.mk "expected a, got z or Unknown parse error."), ['z'])) :=
  ⟨((orDo_fail_identity_amended (parseChar 'a') ['a']).1 'a' [] (by decide)).1,
   ((orDo_fail_identity_amended (parseChar 'a') ['a']).1 'a' [] (by decide)).2,
   (((orDo_fail_identity_amended (parseChar 'a') ['z']).2
      (error.mk "expected a, got z") ['z'] (by decide)).1).trans (by decide),
   (((orDo_fail_identity_amended (parseChar 'a') ['z']).2
      (error.mk "expected a, got z") ['z'] (by decide)).2).trans (by decide)⟩

/-- C8: `many p` never fails — for a parser that consumes on every success,
on every stream it yields a success; when `p` fails at the current position
the iteration stops with the characters collected so far and the failing
attempt consumes nothing (stated at the head of the iteration: the result is
the empty string and the stream is exactly the input stream, not the stream
the failing attempt returned); when `p` succeeds with `c` the result of the
iteration from the advanced stream is prefixed with `c`; and concretely, on
the stream "123", `many (parseChar x)` succeeds with the empty string and
does not consume the character "1". -/
theorem many_spec (p : parser Char) (hp : consuming p) (s : List Char) :
    (∃ str t, (many p).runP s = (either.right str, t)) ∧
    (∀ e t, p.runP s = (either.left e, t) →
      (many p).runP s = (either.right "", s)) ∧
    (∀ c s1, p.runP s = (either.right c, s1) →
      ∀ rest t, (many p).runP s1 = (either.right (String.mk rest), t) →
        (many p).runP s = (either.right (String.mk (c :: rest)), t)) ∧
    ((many (parseChar 'x')).runP ['1', '2', '3'] =
      (either.right "", ['1', '2', '3'])) := by
  refine ⟨⟨String.mk (manyFuel p (s.length + 1) s).1,
           (manyFuel p (s.length + 1) s).2, rfl⟩, ?_, ?_, by decide⟩
  · intro e t h
    have key : manyFuel p (s.length + 1) s = ([], s) := by
      simp [manyFuel, parser.run, h]
    show (yield (String.mk (manyFuel p (s.length + 1) s).1),
          (manyFuel p (s.length + 1) s).2) = (either.right "", s)
    rw [key]
    rfl
  · intro c s1 h rest t h2
    have hlt := hp s c s1 h
    have hirr : manyFuel p s.length s1 = manyFuel p (s1.length + 1) s1 :=
      manyFuel_fuel_irrel p hp s.length (s1.length + 1) s1 hlt (Nat.lt_succ_self _)
    have key : manyFuel p (s.length + 1) s =
        (c :: (manyFuel p (s1.length + 1) s1).1,
         (manyFuel p (s1.length + 1) s1).2) := by
      simp [manyFuel, parser.run, h, hirr]
    have h2' : ((either.right (String.mk (manyFuel p (s1.length + 1) s1).1) :
                  either error String),
                (manyFuel p (s1.length + 1) s1).2) =
               ((either.right (String.mk rest) : either error String), t) := h2
    have hl : (manyFuel p (s1.length + 1) s1).1 = rest := by
      have hfst := congrArg Prod.fst h2'
      simp only [either.right.injEq] at hfst
      exact congrArg String.data hfst
    have ht : (manyFuel p (s1.length + 1) s1).2 = t := congrArg Prod.snd h2'
    show (yield (String.mk (manyFuel p (s.length + 1) s).1),
          (manyFuel p (s.length + 1) s).2) = (either.right (String.mk (c :: rest)), t)
    rw [key]
    simp [yield, hl, ht]

/-- C8 witness: the statement instantiated at `parseChar x` and the stream
"123", with the consumption hypothesis discharged by
`parseChar_consuming`. -/
theorem many_spec_witness :
    (∃ str t, (many (parseChar 'x')).runP ['1', '2', '3'] = (either.right str, t)) ∧
    (∀ e t, (parseChar 'x').runP ['1', '2', '3'] = (either.left e, t) →
      (many (parseChar 'x')).runP ['1', '2', '3'] =
        (either.right "", ['1', '2', '3'])) ∧
    (∀ c s1, (parseChar 'x').runP ['1', '2', '3'] = (either.right c, s1) →
      ∀ rest t, (many (parseChar 'x')).runP s1 = (either.right (String.mk rest), t) →
        (many (parseChar 'x')).runP ['1', '2', '3'] =
          (either.right (String.mk (c :: rest)), t)) ∧
    ((many (parseChar 'x')).runP ['1', '2', '3'] =
      (either.right "", ['1', '2', '3'])) :=
  many_spec (parseChar 'x') (parseChar_consuming 'x') ['1', '2', '3']
